import Mathlib

/-!
Shallow embedding of `build_pretraining_dataset.py` (ELECTRA pretraining-data
builder). The Python source is translated definition by definition:

* the process-global `random` module is modelled by `Gen`, an explicit pair of
  oracle streams (one for `random.random()` draws, one for `random.randint`),
  threaded through every function that draws; each call consumes exactly one
  position of the corresponding stream, in the order the Python code evaluates
  the draws (short-circuit evaluation included);
* Python `str.strip` / `str.split()` / single-character `str.replace` are
  implemented over the character list (ASCII whitespace, as in
  `Char.isWhitespace`);
* Python ints are `Nat` here; the only place the source can produce a negative
  intermediate value is `(target_length - 3) // 2` (used solely as the bound of
  two `<` comparisons, where a negative bound and the truncated-to-0 `Nat`
  bound reject exactly the same lengths) and the slice stop `max_length - 2`,
  which is kept as `Int` (`pySliceTo`) because Python slicing treats a negative
  stop specially;
* `tf.train.Example` is modelled by the record of the three integer lists that
  the source puts into it.
-/

/-- Oracle model of Python's `random` module: a stream of `random.random()`
results (rationals, conceptually in `[0,1)`) and a stream of raw integer draws
backing `random.randint`, each with a cursor. -/
structure Gen where
  floats : Nat → ℚ
  ints : Nat → Nat
  fpos : Nat
  ipos : Nat

/-- One call of `random.random()`: the current float draw and the advanced
generator. -/
def nextFloat (g : Gen) : ℚ × Gen :=
  (g.floats g.fpos, { g with fpos := g.fpos + 1 })

/-- One call of `random.randint(lo, hi)`: a uniform draw over the inclusive
range `[lo, hi]`, modelled as `lo` plus the raw draw reduced mod the range
size. (Python raises `ValueError` when `hi < lo`; the source only calls this
as `randint(5, max_length)` and the theorems below assume `5 ≤ max_length`.) -/
def randint (lo hi : Nat) (g : Gen) : Nat × Gen :=
  (lo + g.ints g.ipos % (hi + 1 - lo), { g with ipos := g.ipos + 1 })

/-- Python `str.strip()`: drop leading and trailing whitespace characters. -/
def pyStrip (s : String) : String :=
  String.mk (((s.toList.dropWhile Char.isWhitespace).reverse.dropWhile
    Char.isWhitespace).reverse)

/-- Helper for `pySplit`: walk the characters, `acc` holding the current
(reversed) in-progress word. -/
def pySplitAux : List Char → List Char → List String
  | [], acc => if acc.isEmpty then [] else [String.mk acc.reverse]
  | c :: cs, acc =>
      if c.isWhitespace then
        if acc.isEmpty then pySplitAux cs []
        else String.mk acc.reverse :: pySplitAux cs []
      else pySplitAux cs (c :: acc)

/-- Python `str.split()` with no arguments: split on runs of whitespace,
discarding empty pieces. -/
def pySplit (s : String) : List String :=
  pySplitAux s.toList []

/-- Source line 90, `line.strip().replace("\n", " ")`: the pattern is a single
character, so the replacement is a character-wise map after the strip. -/
def stripReplace (line : String) : String :=
  String.mk ((pyStrip line).toList.map (fun c => if c = '\n' then ' ' else c))

/-- The five reserved entries installed by `Tokenizer.__init__` (source lines
32-37) before the vocabulary file is read. -/
def reservedVocab : List (String × Nat) :=
  [("[PAD]", 0), ("[UNK]", 1), ("[CLS]", 2), ("[SEP]", 3), ("[MASK]", 4)]

/-- Keys of the vocabulary dictionary, in insertion order. -/
def vocabKeys (v : List (String × Nat)) : List String :=
  v.map Prod.fst

/-- Source line 44, `line.strip().split()` applied to the already-stripped
line of the vocabulary file. -/
def lineFields (line : String) : List String :=
  pySplit (pyStrip (pyStrip line))

/-- The token of a well-formed (exactly two whitespace-separated fields)
vocabulary line, `none` for a malformed one. -/
def linePiece (line : String) : Option String :=
  match lineFields line with
  | [piece, _] => some piece
  | _ => none

/-- Loop body of `Tokenizer.__init__` (source lines 40-47): `v` is the
dictionary built so far, `i` the next id. `piece, _ = line.strip().split()`
raises `ValueError` unless the line has exactly two fields, and
`assert piece not in self.vocab` raises on a repeated key (the five reserved
marker strings included); either failure aborts construction (`none`). -/
def loadVocabAux (v : List (String × Nat)) (i : Nat) : List String → Option (List (String × Nat))
  | [] => some v
  | line :: rest =>
      match lineFields line with
      | [piece, _] =>
          if piece ∈ vocabKeys v then none
          else loadVocabAux (v ++ [(piece, i)]) (i + 1) rest
      | _ => none

/-- `Tokenizer.__init__` (source lines 28-48) on the list of lines of the
vocabulary file: the resulting vocabulary dictionary, or `none` if
construction raises. -/
def loadVocab (lines : List String) : Option (List (String × Nat)) :=
  loadVocabAux reservedVocab 5 lines

/-- `Tokenizer.convert_tokens_to_ids` for one token: `self.vocab.get(tok,
self.unk_id)` with `unk_id = 1` (source lines 32-34, 54-55). -/
def tokenToId (v : List (String × Nat)) (tok : String) : Nat :=
  match v.find? (fun kv => kv.1 == tok) with
  | some kv => kv.2
  | none => 1

/-- `ExampleBuilder`'s mutable attributes (source lines 81-86). -/
structure Builder where
  current_sentences : List (List Nat)
  current_length : Nat
  max_length : Nat
  target_length : Nat
  deriving DecidableEq

/-- `ExampleBuilder.__init__` (source lines 81-86). -/
def initBuilder (maxLen : Nat) : Builder :=
  ⟨[], 0, maxLen, maxLen⟩

/-- The three integer-sequence fields the source serializes into a
`tf.train.Example` (source lines 157-161). -/
structure TfExample where
  input_ids : List Nat
  input_mask : List Nat
  segment_ids : List Nat
  deriving DecidableEq

/-- Sum of the lengths of the pending sentences. -/
def sumLens (l : List (List Nat)) : Nat :=
  (l.map List.length).sum

/-- First-segment target length (source lines 104-108): the mode draw `r` is
compared against 0.1; the single-segment mode uses the effectively unbounded
target 100000, the two-segment mode `(target_length - 3) // 2`. (Python floor
division can return a negative value when `target_length < 3`; the value is
only ever used as the right-hand side of `<` comparisons between natural
numbers, where every negative bound rejects exactly like the bound 0, so the
truncated `Nat` subtraction is observationally identical.) -/
def firstSegTarget (targetLen : Nat) (r : ℚ) : Nat :=
  if r < (1 : ℚ)/10 then 100000 else (targetLen - 3) / 2

/-- The sentence-distribution loop of `_create_example` (source lines
110-123), with the caller's `first_segment`/`second_segment` accumulators and
the generator threaded explicitly. The coin draw on line 120 is consumed only
when Python's short-circuit evaluation reaches it: the first two disjuncts
false and `len(second_segment) == 0 and len(first_segment) < target` true. -/
def assignSentences (tgt : Nat) (sents : List (List Nat)) (first second : List Nat)
    (g : Gen) : List Nat × List Nat × Gen :=
  match sents with
  | [] => (first, second, g)
  | s :: rest =>
      if first.length = 0 then
        assignSentences tgt rest (first ++ s) second g
      else if first.length + s.length < tgt then
        assignSentences tgt rest (first ++ s) second g
      else if second.length = 0 ∧ first.length < tgt then
        if (nextFloat g).1 < (1 : ℚ)/2 then
          assignSentences tgt rest (first ++ s) second (nextFloat g).2
        else
          assignSentences tgt rest first (second ++ s) (nextFloat g).2
      else
        assignSentences tgt rest first (second ++ s) g

/-- Python slice `l[:k]` for an `Int` stop: a nonnegative stop keeps the first
`k` elements, a negative stop keeps all but the last `-k` (clamped at the
empty list). -/
def pySliceTo (l : List Nat) (k : Int) : List Nat :=
  l.take (if 0 ≤ k then k.toNat else ((l.length : Int) + k).toNat)

/-- The truncation step of `_create_example` (source lines 125-128):
`first_segment = first_segment[:max_length - 2]`, then
`second_segment = second_segment[:max(0, max_length - len(first_segment) - 3)]`
with the already-truncated first segment's length. -/
def truncateSegments (maxLen : Nat) (first second : List Nat) : List Nat × List Nat :=
  let first' := pySliceTo first ((maxLen : Int) - 2)
  let second' := second.take (max 0 ((maxLen : Int) - (first'.length : Int) - 3)).toNat
  (first', second')

/-- Python `l += [x] * (m - len(l))` (source lines 154-156): right-pad to
length `m` with `x`; a negative repetition count yields the empty list, as
does the truncated `Nat` subtraction. -/
def padTo (m x : Nat) (l : List Nat) : List Nat :=
  l ++ List.replicate (m - l.length) x

/-- `ExampleBuilder._make_tf_example` (source lines 141-162). By construction
of `Tokenizer.__init__`, `vocab["[CLS]"] = 2`, `vocab["[SEP]"] = 3` and
`vocab["[PAD]"] = 0`. `if second_segment:` is the emptiness test. -/
def makeTfExample (maxLen : Nat) (first second : List Nat) : TfExample :=
  let ids0 : List Nat := 2 :: (first ++ [3])
  let segs0 : List Nat := List.replicate ids0.length 0
  let ids1 := if second.isEmpty then ids0 else ids0 ++ (second ++ [3])
  let segs1 := if second.isEmpty then segs0
               else segs0 ++ List.replicate (second.length + 1) 1
  let mask := List.replicate ids1.length 1
  ⟨padTo maxLen 0 ids1, padTo maxLen 0 mask, padTo maxLen 0 segs1⟩

/-- `ExampleBuilder._create_example` (source lines 101-139): mode draw,
sentence distribution, truncation, accumulator reset, target-length redraw
(draw against 0.05, then `random.randint(5, max_length)` only in that
branch), and assembly of the example from the truncated segments. -/
def createExample (st : Builder) (g : Gen) : TfExample × Builder × Gen :=
  let r0 := (nextFloat g).1
  let g0 := (nextFloat g).2
  let fsg := assignSentences (firstSegTarget st.target_length r0) st.current_sentences [] [] g0
  let ts := truncateSegments st.max_length fsg.1 fsg.2.1
  let r1 := (nextFloat fsg.2.2).1
  let g1 := (nextFloat fsg.2.2).2
  let tg := if r1 < (1 : ℚ)/20 then randint 5 st.max_length g1 else (st.max_length, g1)
  (makeTfExample st.max_length ts.1 ts.2,
   { st with current_sentences := [], current_length := 0, target_length := tg.1 },
   tg.2)

/-- `Tokenizer.tokenize` followed by `convert_tokens_to_ids` as used on source
lines 93-94 (the argument is the already stripped-and-replaced line). -/
def lineIds (v : List (String × Nat)) (l : String) : List Nat :=
  (pySplit (pyStrip l)).map (tokenToId v)

/-- `ExampleBuilder.add_line` (source lines 88-99). -/
def addLine (v : List (String × Nat)) (st : Builder) (g : Gen) (line : String) :
    Option TfExample × Builder × Gen :=
  let l := stripReplace line
  if l = "" ∧ st.current_length ≠ 0 then
    let c := createExample st g
    (some c.1, c.2)
  else
    let ids := lineIds v l
    let st' := { st with current_sentences := st.current_sentences ++ [ids],
                         current_length := st.current_length + ids.length }
    if st'.target_length ≤ st'.current_length then
      let c := createExample st' g
      (some c.1, c.2)
    else
      (none, st', g)

/-- Constant generator used for concrete evaluations: every float draw is 1/2,
every raw integer draw is 0. -/
def genHalf : Gen :=
  ⟨fun _ => (1 : ℚ)/2, fun _ => 0, 0, 0⟩

/-- The distribution step of `_create_example` as invoked on the accumulator:
mode draw, then the sentence loop started with empty segments. -/
def distSegments (st : Builder) (g : Gen) : List Nat × List Nat × Gen :=
  assignSentences (firstSegTarget st.target_length (nextFloat g).1)
    st.current_sentences [] [] (nextFloat g).2

/-- Generator state right after the sentence-distribution loop: the point
where `_create_example` draws against 0.05 (source line 134). -/
def segGen (st : Builder) (g : Gen) : Gen :=
  (distSegments st g).2.2

/-- Events observable in one worker's write loop: completion of
`example_writer.write_examples(fname)` for one input file, and
`example_writer.finish()`. -/
inductive WorkerEvent
  | fileWritten (i : Nat)
  | finishCalled
  deriving DecidableEq

/-- The write loop of the worker function `write_examples(job_id, args)`
(source lines 233-242), with I/O failure abstracted by the oracle `fails`:
per file the loop calls `example_writer.write_examples(fname)`; if that raises
(`fails i = true`), the exception propagates out of the plain `for` loop —
there is no `try`/`finally` or context manager in the source — so the trace
ends without `finish`; only after the loop completes normally does
`example_writer.finish()` run. The `Bool` result records normal completion. -/
def workerLoop (fails : Nat → Bool) : List Nat → List WorkerEvent → List WorkerEvent × Bool
  | [], tr => (tr ++ [WorkerEvent.finishCalled], true)
  | i :: rest, tr =>
      if fails i then (tr, false)
      else workerLoop fails rest (tr ++ [WorkerEvent.fileWritten i])

/-- One worker's whole write loop over its list of input files. -/
def runWorker (fails : Nat → Bool) (files : List Nat) : List WorkerEvent × Bool :=
  workerLoop fails files []

/-! ## Helper lemmas -/

theorem stripReplace_of_strip_eq_nil {line : String} (h : pyStrip line = "") :
    stripReplace line = "" := by
  unfold stripReplace
  rw [h]
  rfl

theorem sumLens_append (l : List (List Nat)) (s : List Nat) :
    sumLens (l ++ [s]) = sumLens l + s.length := by
  simp [sumLens]

theorem createExample_fst (st : Builder) (g : Gen) :
    (createExample st g).1 =
      makeTfExample st.max_length
        (truncateSegments st.max_length (distSegments st g).1 (distSegments st g).2.1).1
        (truncateSegments st.max_length (distSegments st g).1 (distSegments st g).2.1).2 :=
  rfl

theorem createExample_snd_builder (st : Builder) (g : Gen) :
    (createExample st g).2.1.current_sentences = []
    ∧ (createExample st g).2.1.current_length = 0
    ∧ (createExample st g).2.1.max_length = st.max_length :=
  ⟨rfl, rfl, rfl⟩

theorem truncateSegments_fst (maxLen : Nat) (f s : List Nat) :
    (truncateSegments maxLen f s).1 = pySliceTo f ((maxLen : Int) - 2) :=
  rfl

theorem truncateSegments_snd (maxLen : Nat) (f s : List Nat) :
    (truncateSegments maxLen f s).2 =
      s.take (max 0 ((maxLen : Int) -
        ((pySliceTo f ((maxLen : Int) - 2)).length : Int) - 3)).toNat :=
  rfl

theorem pySliceTo_eq_take (maxLen : Nat) (f : List Nat) (h2 : 2 ≤ maxLen) :
    pySliceTo f ((maxLen : Int) - 2) = f.take (maxLen - 2) := by
  unfold pySliceTo
  rw [if_pos (show (0 : Int) ≤ (maxLen : Int) - 2 by omega)]
  congr 1
  omega

theorem trunc_bounds (maxLen : Nat) (f s : List Nat) (h2 : 2 ≤ maxLen) :
    (truncateSegments maxLen f s).1.length + 2 ≤ maxLen
    ∧ ((truncateSegments maxLen f s).2 ≠ [] →
        (truncateSegments maxLen f s).1.length + (truncateSegments maxLen f s).2.length + 3
          ≤ maxLen) := by
  rw [truncateSegments_fst, truncateSegments_snd, pySliceTo_eq_take maxLen f h2]
  have hn1 := List.length_take (maxLen - 2) f
  constructor
  · omega
  · intro hne
    have hlen2 := List.length_take
      (max 0 ((maxLen : Int) - ((f.take (maxLen - 2)).length : Int) - 3)).toNat s
    have hpos : (max 0 ((maxLen : Int) -
        ((f.take (maxLen - 2)).length : Int) - 3)).toNat ≠ 0 := by
      intro h0
      rw [h0] at hne
      exact hne (List.take_zero s)
    omega

theorem padTo_length (m x : Nat) (l : List Nat) (h : l.length ≤ m) :
    (padTo m x l).length = m := by
  simp [padTo]
  omega

theorem makeTfExample_lengths (maxLen : Nat) (f s : List Nat)
    (hf : f.length + 2 ≤ maxLen)
    (hs : s ≠ [] → f.length + s.length + 3 ≤ maxLen) :
    (makeTfExample maxLen f s).input_ids.length = maxLen
    ∧ (makeTfExample maxLen f s).input_mask.length = maxLen
    ∧ (makeTfExample maxLen f s).segment_ids.length = maxLen := by
  unfold makeTfExample
  rcases eq_or_ne s [] with h | h
  · subst h
    simp only [List.isEmpty_nil, if_true]
    refine ⟨padTo_length _ _ _ ?_, padTo_length _ _ _ ?_, padTo_length _ _ _ ?_⟩ <;>
      simp <;> omega
  · have hs' := hs h
    rw [show s.isEmpty = false by simpa [List.isEmpty_iff] using h]
    simp only [if_false]
    refine ⟨padTo_length _ _ _ ?_, padTo_length _ _ _ ?_, padTo_length _ _ _ ?_⟩ <;>
      simp <;> omega

theorem addLine_emits (v : List (String × Nat)) (st : Builder) (g : Gen) (line : String)
    (ex : TfExample) (hex : (addLine v st g line).1 = some ex) :
    ∃ st₀ : Builder,
      st₀.max_length = st.max_length ∧
      ex = (createExample st₀ g).1 ∧
      ((st₀ = st ∧ stripReplace line = "" ∧ st.current_length ≠ 0) ∨
       (st₀ = { st with
                  current_sentences := st.current_sentences ++ [lineIds v (stripReplace line)],
                  current_length :=
                    st.current_length + (lineIds v (stripReplace line)).length }
        ∧ st.target_length ≤ st₀.current_length)) := by
  simp only [addLine] at hex
  split at hex
  · rename_i h
    exact ⟨st, rfl, (Option.some.inj hex).symm, Or.inl ⟨rfl, h.1, h.2⟩⟩
  · split at hex
    · rename_i h'
      exact ⟨{ st with
                current_sentences := st.current_sentences ++ [lineIds v (stripReplace line)],
                current_length :=
                  st.current_length + (lineIds v (stripReplace line)).length },
             rfl, (Option.some.inj hex).symm, Or.inr ⟨rfl, h'⟩⟩
    · exact absurd hex (by simp)

/-! ## Claim theorems -/

/-- Claim C2, counterexample. With `max_length = 1` the slice stop
`max_length - 2 = -1` is negative, and Python slicing then keeps all but the
last token instead of truncating to the (empty) prefix of length at most
`max_length - 2`: from `first_segment = [7, 8]` the truncation keeps `[7]`,
whose length is neither `≤ max_length - 2` (as an integer, `-1`) nor `0` (the
clamped reading); the surviving token even reaches the emitted example. -/
theorem claim_C2_cex :
    (truncateSegments 1 [7, 8] []).1 = [7]
    ∧ ¬ (((truncateSegments 1 [7, 8] []).1.length : Int) ≤ (1 : Int) - 2)
    ∧ (truncateSegments 1 [7, 8] []).1.length ≠ 0
    ∧ (createExample ⟨[[7, 8]], 2, 1, 1⟩ genHalf).1.input_ids = [2, 7, 3] := by
  decide

/-- Claim C2, amended: for `2 ≤ max_length` (so the slice stop is
nonnegative), `_create_example` truncates `first_segment` to the prefix of at
most `max_length - 2` tokens and `second_segment` to the prefix of at most
`max(0, max_length - len(first_segment) - 3)` tokens (with the truncated
first segment's length); for `max_length < 2` Python's negative slice stop
instead drops only the last `2 - max_length` tokens of `first_segment`. -/
theorem claim_C2_amended (maxLen : Nat) (f s : List Nat) (h2 : 2 ≤ maxLen) :
    (truncateSegments maxLen f s).1 = f.take (maxLen - 2)
    ∧ (truncateSegments maxLen f s).1.length ≤ maxLen - 2
    ∧ (truncateSegments maxLen f s).2 =
        s.take (max 0 ((maxLen : Int) -
          ((truncateSegments maxLen f s).1.length : Int) - 3)).toNat
    ∧ (truncateSegments maxLen f s).2.length ≤
        (max 0 ((maxLen : Int) -
          ((truncateSegments maxLen f s).1.length : Int) - 3)).toNat
    ∧ (∃ t, f = (truncateSegments maxLen f s).1 ++ t)
    ∧ (∃ t, s = (truncateSegments maxLen f s).2 ++ t) := by
  have h1 : (truncateSegments maxLen f s).1 = f.take (maxLen - 2) := by
    rw [truncateSegments_fst, pySliceTo_eq_take maxLen f h2]
  have h1len : (truncateSegments maxLen f s).1.length ≤ maxLen - 2 := by
    rw [h1, List.length_take]
    exact min_le_left _ _
  have h2eq : (truncateSegments maxLen f s).2 =
      s.take (max 0 ((maxLen : Int) -
        ((truncateSegments maxLen f s).1.length : Int) - 3)).toNat := by
    rw [truncateSegments_snd, truncateSegments_fst]
  refine ⟨h1, h1len, h2eq, ?_, ?_, ?_⟩
  · rw [h2eq, List.length_take]
    exact min_le_left _ _
  · exact ⟨f.drop (maxLen - 2), by rw [h1, List.take_append_drop]⟩
  · refine ⟨s.drop (max 0 ((maxLen : Int) -
      ((truncateSegments maxLen f s).1.length : Int) - 3)).toNat, ?_⟩
    rw [h2eq, List.take_append_drop]

/-- Claim C2, witness at `max_length = 4`. -/
theorem claim_C2_witness :
    (truncateSegments 4 [9, 9, 9] [5]).1 = [9, 9, 9].take (4 - 2) :=
  (claim_C2_amended 4 [9, 9, 9] [5] (by decide)).1

/-- Claim C3, counterexample. With `max_length = 1` (reachable configuration:
`--max-seq-length 1`), a one-token line triggers emission and this emitted
example's three sequences have length 2, not `max_length`: the base
`[CLS] ... [SEP]` frame alone is longer than `max_length` and the padding
`[PAD] * (max_length - len)` has a negative repetition count, which Python
silently turns into no padding and no truncation. -/
theorem claim_C3_cex :
    ((addLine [] (initBuilder 1) genHalf "a").1).map (fun e => e.input_ids.length) = some 2
    ∧ ((addLine [] (initBuilder 1) genHalf "a").1).map (fun e => e.input_mask.length) = some 2
    ∧ ((addLine [] (initBuilder 1) genHalf "a").1).map (fun e => e.segment_ids.length) = some 2
    ∧ (initBuilder 1).max_length = 1
    ∧ (2 : Nat) ≠ 1 := by
  decide

/-- Claim C3, amended: for `2 ≤ max_length`, every example emitted through
`add_line` (the end-of-input flush is `add_line("")`) has
`input_ids`, `input_mask` and `segment_ids` of length exactly `max_length`. -/
theorem claim_C3_amended (v : List (String × Nat)) (st : Builder) (g : Gen) (line : String)
    (ex : TfExample) (h2 : 2 ≤ st.max_length) (hex : (addLine v st g line).1 = some ex) :
    ex.input_ids.length = st.max_length
    ∧ ex.input_mask.length = st.max_length
    ∧ ex.segment_ids.length = st.max_length := by
  obtain ⟨st₀, hmax, hexeq, -⟩ := addLine_emits v st g line ex hex
  subst hexeq
  rw [createExample_fst]
  rw [hmax] at *
  obtain ⟨hb1, hb2⟩ := trunc_bounds st.max_length
    (distSegments st₀ g).1 (distSegments st₀ g).2.1 h2
  exact makeTfExample_lengths _ _ _ (by omega) (fun hne => by have := hb2 hne; omega)

/-- Claim C3, witness at `max_length = 4`. -/
theorem claim_C3_witness :
    ((addLine [] (initBuilder 4) genHalf "a b c d").1.getD ⟨[], [], []⟩).input_ids.length = 4
    ∧ ((addLine [] (initBuilder 4) genHalf "a b c d").1.getD ⟨[], [], []⟩).input_mask.length = 4
    ∧ ((addLine [] (initBuilder 4) genHalf "a b c d").1.getD
        ⟨[], [], []⟩).segment_ids.length = 4 :=
  claim_C3_amended [] (initBuilder 4) genHalf "a b c d"
    ((addLine [] (initBuilder 4) genHalf "a b c d").1.getD ⟨[], [], []⟩)
    (by decide) (by decide)

/-- Claim C4: a whitespace-only line given to `add_line` while content is
pending (`current_length ≠ 0`) immediately runs `_create_example` on the
pending state and returns the example, with no condition on whether
`current_length` reached `target_length`. -/
theorem claim_C4 (v : List (String × Nat)) (st : Builder) (g : Gen) (line : String)
    (hne : st.current_length ≠ 0) (hl : pyStrip line = "") :
    addLine v st g line = (some (createExample st g).1, (createExample st g).2) := by
  have h0 : stripReplace line = "" := stripReplace_of_strip_eq_nil hl
  simp only [addLine, h0]
  rw [if_pos ⟨trivial, hne⟩]

/-- Claim C4, witness: a pending state below its target length still emits on
the blank line. -/
theorem claim_C4_witness :
    addLine [] ⟨[[9]], 1, 6, 6⟩ genHalf " " =
      (some (createExample ⟨[[9]], 1, 6, 6⟩ genHalf).1,
       (createExample ⟨[[9]], 1, 6, 6⟩ genHalf).2) :=
  claim_C4 [] ⟨[[9]], 1, 6, 6⟩ genHalf " " (by decide) (by decide)

/-- Claim C6, counterexample. An empty line with no pending content returns
nothing, but does not leave the accumulator unchanged: line 95's
`self._current_sentences.append(bert_tokids)` still runs and appends the
empty token list, so `pending_sentences` grows from `[]` to `[[]]`. -/
theorem claim_C6_cex :
    (initBuilder 10).current_length = 0
    ∧ (addLine [] (initBuilder 10) genHalf "").1 = none
    ∧ (addLine [] (initBuilder 10) genHalf "").2.1 ≠ initBuilder 10
    ∧ (addLine [] (initBuilder 10) genHalf "").2.1.current_sentences = [[]] := by
  decide

/-- Claim C6, amended: with `pending_length = 0`, a whitespace-only line
returns nothing and leaves `current_length`, `max_length`, `target_length`
and the generator unchanged, but appends an empty sentence to
`current_sentences`. (The extra hypothesis `1 ≤ target_length` — true of
every reachable state when `max_length ≥ 1` — rules out the degenerate
`target_length = 0`, where the comparison `0 ≥ target_length` would instead
trigger an emission.) -/
theorem claim_C6_amended (v : List (String × Nat)) (st : Builder) (g : Gen) (line : String)
    (h0 : st.current_length = 0) (hl : pyStrip line = "") (ht : 1 ≤ st.target_length) :
    addLine v st g line =
      (none, { st with current_sentences := st.current_sentences ++ [[]] }, g) := by
  have hsr : stripReplace line = "" := stripReplace_of_strip_eq_nil hl
  simp only [addLine, hsr]
  rw [if_neg (by simp [h0])]
  have hids : lineIds v "" = [] := rfl
  simp only [hids, List.length_nil, Nat.add_zero]
  rw [if_neg (by omega)]

/-- Claim C6, witness. -/
theorem claim_C6_witness :
    addLine [] ⟨[[], []], 0, 7, 7⟩ genHalf " " =
      (none, ⟨[[], [], []], 0, 7, 7⟩, genHalf) :=
  claim_C6_amended [] ⟨[[], []], 0, 7, 7⟩ genHalf " " (by decide) (by decide) (by decide)

/-- Claim C7: `current_length = sumLens current_sentences` holds after
`ExampleBuilder.__init__` and is preserved by every `add_line` call,
including those that run `_create_example` and reset the accumulator. -/
theorem claim_C7 (v : List (String × Nat)) (st : Builder) (g : Gen) (line : String) (m : Nat) :
    (initBuilder m).current_length = sumLens (initBuilder m).current_sentences
    ∧ (st.current_length = sumLens st.current_sentences →
        (addLine v st g line).2.1.current_length =
          sumLens (addLine v st g line).2.1.current_sentences) := by
  constructor
  · rfl
  · intro h
    simp only [addLine]
    split
    · rfl
    · split
      · rfl
      · simp only []
        rw [sumLens_append, h]

/-- Claim C7, witness. -/
theorem claim_C7_witness :
    (addLine [] (initBuilder 4) genHalf "a b").2.1.current_length =
      sumLens (addLine [] (initBuilder 4) genHalf "a b").2.1.current_sentences :=
  (claim_C7 [] (initBuilder 4) genHalf "a b" 4).2 (by decide)

theorem workerLoop_spec (fails : Nat → Bool) : ∀ (files : List Nat) (tr : List WorkerEvent),
    ((workerLoop fails files tr).2 = true ↔ ∀ i ∈ files, fails i = false)
    ∧ (WorkerEvent.finishCalled ∈ (workerLoop fails files tr).1 ↔
        (WorkerEvent.finishCalled ∈ tr ∨ (workerLoop fails files tr).2 = true)) := by
  intro files
  induction files with
  | nil =>
      intro tr
      simp [workerLoop]
  | cons i rest ih =>
      intro tr
      rcases hf : fails i with hv | hv
      · constructor
        · rw [show workerLoop fails (i :: rest) tr =
              workerLoop fails rest (tr ++ [WorkerEvent.fileWritten i]) from by
                simp [workerLoop, hf]]
          rw [(ih (tr ++ [WorkerEvent.fileWritten i])).1]
          simp [hf]
        · rw [show workerLoop fails (i :: rest) tr =
              workerLoop fails rest (tr ++ [WorkerEvent.fileWritten i]) from by
                simp [workerLoop, hf]]
          rw [(ih (tr ++ [WorkerEvent.fileWritten i])).2]
          simp
      · constructor
        · rw [show workerLoop fails (i :: rest) tr = (tr, false) from by
              simp [workerLoop, hf]]
          simp [hf]
        · rw [show workerLoop fails (i :: rest) tr = (tr, false) from by
              simp [workerLoop, hf]]
          simp

/-- Claim C8, counterexample. If writing the (single) input file raises, the
worker's write loop terminates abnormally and `finish()` is never reached:
the source has no `try`/`finally` around the loop in `write_examples(job_id,
args)`, so the shard handles are not released on the error path. -/
theorem claim_C8_cex :
    (runWorker (fun _ => true) [0]).2 = false
    ∧ WorkerEvent.finishCalled ∉ (runWorker (fun _ => true) [0]).1 := by
  decide

/-- Claim C8, amended: `finish()` is reached exactly on the normal exit path.
The loop completes normally iff no file write fails; in that case (and only
then) `finish()` runs; if any write raises, the exception propagates and
`finish()` is never called. -/
theorem claim_C8_amended (fails : Nat → Bool) (files : List Nat) :
    ((runWorker fails files).2 = true ↔ ∀ i ∈ files, fails i = false)
    ∧ ((runWorker fails files).2 = true →
        WorkerEvent.finishCalled ∈ (runWorker fails files).1)
    ∧ ((runWorker fails files).2 = false →
        WorkerEvent.finishCalled ∉ (runWorker fails files).1) := by
  obtain ⟨h1, h2⟩ := workerLoop_spec fails files []
  refine ⟨h1, fun hok => h2.mpr (Or.inr hok), fun hbad hmem => ?_⟩
  rcases h2.mp hmem with h | h
  · simp at h
  · rw [show (runWorker fails files).2 = (workerLoop fails files []).2 from rfl, h] at hbad
    cases hbad

/-- Claim C8, witness: on the failure-free path `finish()` is reached. -/
theorem claim_C8_witness :
    WorkerEvent.finishCalled ∈ (runWorker (fun _ => false) [0, 1]).1 :=
  (claim_C8_amended (fun _ => false) [0, 1]).2.1 (by decide)

/-- Claim C1: in `_create_example`, first the mode draw against 0.1 picks the
effectively unbounded single-segment target 100000 or `(target_length-3)//2`
(first two conjuncts), the example is assembled from the segments the
distribution loop produces with that target (third conjunct), and each pending
sentence, in original order, goes to the first segment exactly when the first
segment is empty, or adding it keeps the first segment strictly under the
target, or the second segment is still empty, the first segment is still
under target and the fair coin draw favors the first segment (last two
conjuncts; the coin draw is consumed exactly when short-circuit evaluation
reaches it). -/
theorem claim_C1 (st : Builder) (g : Gen) :
    ((nextFloat g).1 < (1 : ℚ)/10 →
        firstSegTarget st.target_length (nextFloat g).1 = 100000)
    ∧ (¬ (nextFloat g).1 < (1 : ℚ)/10 →
        firstSegTarget st.target_length (nextFloat g).1 = (st.target_length - 3) / 2)
    ∧ (createExample st g).1 =
        makeTfExample st.max_length
          (truncateSegments st.max_length
            (assignSentences (firstSegTarget st.target_length (nextFloat g).1)
              st.current_sentences [] [] (nextFloat g).2).1
            (assignSentences (firstSegTarget st.target_length (nextFloat g).1)
              st.current_sentences [] [] (nextFloat g).2).2.1).1
          (truncateSegments st.max_length
            (assignSentences (firstSegTarget st.target_length (nextFloat g).1)
              st.current_sentences [] [] (nextFloat g).2).1
            (assignSentences (firstSegTarget st.target_length (nextFloat g).1)
              st.current_sentences [] [] (nextFloat g).2).2.1).2
    ∧ (∀ (tgt : Nat) (s : List Nat) (rest : List (List Nat)) (first second : List Nat)
          (g' : Gen),
        (first = [] ∨ first.length + s.length < tgt ∨
            (second = [] ∧ first.length < tgt ∧ (nextFloat g').1 < (1 : ℚ)/2)) →
          assignSentences tgt (s :: rest) first second g' =
            assignSentences tgt rest (first ++ s) second
              (if first ≠ [] ∧ ¬ first.length + s.length < tgt
                  ∧ second = [] ∧ first.length < tgt
               then (nextFloat g').2 else g'))
    ∧ (∀ (tgt : Nat) (s : List Nat) (rest : List (List Nat)) (first second : List Nat)
          (g' : Gen),
        ¬ (first = [] ∨ first.length + s.length < tgt ∨
            (second = [] ∧ first.length < tgt ∧ (nextFloat g').1 < (1 : ℚ)/2)) →
          assignSentences tgt (s :: rest) first second g' =
            assignSentences tgt rest first (second ++ s)
              (if second = [] ∧ first.length < tgt then (nextFloat g').2 else g')) := by
  refine ⟨?_, ?_, rfl, ?_, ?_⟩
  · intro h
    unfold firstSegTarget
    rw [if_pos h]
  · intro h
    unfold firstSegTarget
    rw [if_neg h]
  · intro tgt s rest first second g' h
    simp only [assignSentences]
    by_cases hA : first = []
    · rw [if_pos (by simp [hA]), if_neg (by simp [hA])]
    · rw [if_neg (fun hl => hA (List.length_eq_zero.mp hl))]
      by_cases hB : first.length + s.length < tgt
      · rw [if_pos hB, if_neg (by simp [hB])]
      · have h3 : second = [] ∧ first.length < tgt ∧ (nextFloat g').1 < (1 : ℚ)/2 := by
          rcases h with h | h | h
          · exact absurd h hA
          · exact absurd h hB
          · exact h
        rw [if_neg hB, if_pos ⟨List.length_eq_zero.mpr h3.1, h3.2.1⟩, if_pos h3.2.2,
          if_pos ⟨hA, hB, h3.1, h3.2.1⟩]
  · intro tgt s rest first second g' h
    have hA : first ≠ [] := fun a => h (Or.inl a)
    have hB : ¬ first.length + s.length < tgt := fun b => h (Or.inr (Or.inl b))
    have hCDE : ¬ (second = [] ∧ first.length < tgt ∧ (nextFloat g').1 < (1 : ℚ)/2) :=
      fun c => h (Or.inr (Or.inr c))
    simp only [assignSentences]
    rw [if_neg (fun hl => hA (List.length_eq_zero.mp hl)), if_neg hB]
    by_cases hCD : second = [] ∧ first.length < tgt
    · have hE : ¬ (nextFloat g').1 < (1 : ℚ)/2 := fun hE =>
        hCDE ⟨hCD.1, hCD.2, hE⟩
      rw [if_pos ⟨List.length_eq_zero.mpr hCD.1, hCD.2⟩, if_neg hE, if_pos hCD]
    · rw [if_neg (fun hc => hCD ⟨List.length_eq_zero.mp hc.1, hc.2⟩),
        if_neg hCD]

/-- Claim C1, witness: an instance of the per-sentence rule (empty first
segment, so the sentence goes to the first segment and no coin is drawn). -/
theorem claim_C1_witness :
    assignSentences 3 [[9]] [] [] genHalf = assignSentences 3 [] [9] [] genHalf := by
  have h := (claim_C1 (initBuilder 3) genHalf).2.2.2.1 3 [9] [] [] [] genHalf (Or.inl rfl)
  simpa using h

theorem createExample_target (st : Builder) (g : Gen) :
    (createExample st g).2.1.target_length =
      (if (nextFloat (segGen st g)).1 < (1 : ℚ)/20
       then (randint 5 st.max_length (nextFloat (segGen st g)).2).1
       else st.max_length) := by
  simp only [createExample, segGen, distSegments]
  split <;> rfl

theorem randint_bounds (lo hi : Nat) (h : lo ≤ hi) (u : Gen) :
    lo ≤ (randint lo hi u).1 ∧ (randint lo hi u).1 ≤ hi := by
  unfold randint
  have hm := Nat.mod_lt (u.ints u.ipos) (show 0 < hi + 1 - lo by omega)
  constructor
  · exact Nat.le_add_right _ _
  · simp only []
    omega

theorem randint_surj (lo hi v : Nat) (h1 : lo ≤ v) (h2 : v ≤ hi) :
    ∃ u : Gen, (randint lo hi u).1 = v := by
  refine ⟨⟨fun _ => 0, fun _ => v - lo, 0, 0⟩, ?_⟩
  unfold randint
  simp only []
  rw [Nat.mod_eq_of_lt (by omega)]
  omega

/-- Claim C5: after the current example's segments have been produced with the
old `target_length` (last conjunct, and the redraw is taken from `segGen`, the
generator state after all the distribution draws), `target_length` for the
next cycle is redrawn: against 0.05 either a `randint(5, max_length)` draw or
`max_length` (first conjunct); in the random branch the result always lies in
`[5, max_length]` and every value of that range is attainable (the embedded
`randint` is the uniform draw `5 + u % (max_length - 4)`). -/
theorem claim_C5 (st : Builder) (g : Gen) (h5 : 5 ≤ st.max_length) :
    (createExample st g).2.1.target_length =
      (if (nextFloat (segGen st g)).1 < (1 : ℚ)/20
       then (randint 5 st.max_length (nextFloat (segGen st g)).2).1
       else st.max_length)
    ∧ ((nextFloat (segGen st g)).1 < (1 : ℚ)/20 →
        5 ≤ (createExample st g).2.1.target_length
        ∧ (createExample st g).2.1.target_length ≤ st.max_length)
    ∧ (¬ (nextFloat (segGen st g)).1 < (1 : ℚ)/20 →
        (createExample st g).2.1.target_length = st.max_length)
    ∧ (∀ u : Gen, 5 ≤ (randint 5 st.max_length u).1
        ∧ (randint 5 st.max_length u).1 ≤ st.max_length)
    ∧ (∀ w : Nat, 5 ≤ w → w ≤ st.max_length → ∃ u : Gen, (randint 5 st.max_length u).1 = w)
    ∧ (createExample st g).1 =
        makeTfExample st.max_length
          (truncateSegments st.max_length (distSegments st g).1 (distSegments st g).2.1).1
          (truncateSegments st.max_length (distSegments st g).1 (distSegments st g).2.1).2 := by
  refine ⟨createExample_target st g, ?_, ?_, fun u => randint_bounds 5 st.max_length h5 u,
    fun w hw1 hw2 => randint_surj 5 st.max_length w hw1 hw2, createExample_fst st g⟩
  · intro hc
    rw [createExample_target st g, if_pos hc]
    exact randint_bounds 5 st.max_length h5 _
  · intro hc
    rw [createExample_target st g, if_neg hc]

/-- Claim C5, witness: every value of `[5, max_length]` is attainable by the
redraw (here `max_length = 5`). -/
theorem claim_C5_witness : ∃ u : Gen, (randint 5 5 u).1 = 5 :=
  (claim_C5 (initBuilder 5) genHalf (by decide)).2.2.2.2.1 5 (by decide) (by decide)

theorem assign_keeps_first_ne_nil (tgt : Nat) (sents : List (List Nat)) :
    ∀ (first second : List Nat) (g : Gen), first ≠ [] →
      (assignSentences tgt sents first second g).1 ≠ [] := by
  induction sents with
  | nil =>
      intro first second g h
      exact h
  | cons s rest ih =>
      intro first second g h
      have hfs : first ++ s ≠ [] := by
        cases first
        · exact absurd rfl h
        · simp
      simp only [assignSentences]
      split
      · exact ih _ _ _ hfs
      · split
        · exact ih _ _ _ hfs
        · split
          · split
            · exact ih _ _ _ hfs
            · exact ih _ _ _ h
          · exact ih _ _ _ h

theorem assign_first_ne_nil (tgt : Nat) (sents : List (List Nat)) :
    ∀ (second : List Nat) (g : Gen), sumLens sents ≠ 0 →
      (assignSentences tgt sents [] second g).1 ≠ [] := by
  induction sents with
  | nil =>
      intro second g h
      exact absurd rfl h
  | cons s rest ih =>
      intro second g h
      simp only [assignSentences]
      rw [if_pos (by simp)]
      rcases eq_or_ne s [] with hs | hs
      · subst hs
        simp only [List.append_nil]
        refine ih second g ?_
        simpa [sumLens] using h
      · exact assign_keeps_first_ne_nil tgt rest ([] ++ s) second g (by simpa using hs)

theorem take_ne_nil (l : List Nat) (k : Nat) (hl : l ≠ []) (hk : k ≠ 0) :
    l.take k ≠ [] := by
  cases l with
  | nil => exact absurd rfl hl
  | cons a t =>
      cases k with
      | zero => exact absurd rfl hk
      | succ k' => simp [List.take]

theorem trunc_first_ne_nil (maxLen : Nat) (f s : List Nat) (h5 : 5 ≤ maxLen)
    (hf : f ≠ []) : (truncateSegments maxLen f s).1 ≠ [] := by
  rw [truncateSegments_fst, pySliceTo_eq_take maxLen f (by omega)]
  exact take_ne_nil f (maxLen - 2) hf (by omega)

theorem makeTfExample_shape (maxLen : Nat) (f s : List Nat) (hf : f ≠ []) :
    (makeTfExample maxLen f s).input_ids.head? = some 2
    ∧ (∃ f' rest, f' ≠ [] ∧ (makeTfExample maxLen f s).input_ids = 2 :: (f' ++ 3 :: rest))
    ∧ 3 ≤ (makeTfExample maxLen f s).input_mask.sum := by
  have hlen : 1 ≤ f.length := List.length_pos.mpr hf
  unfold makeTfExample padTo
  rcases eq_or_ne s [] with h | h
  · subst h
    simp only [List.isEmpty_nil, if_true]
    refine ⟨?_, ⟨f, List.replicate (maxLen - (2 :: (f ++ [3])).length) 0, hf, ?_⟩, ?_⟩
    · simp
    · simp
    · simp [List.sum_append, List.sum_replicate, smul_eq_mul]
      omega
  · rw [show s.isEmpty = false by simpa [List.isEmpty_iff] using h]
    simp only [if_false]
    refine ⟨?_,
      ⟨f, (s ++ [3]) ++ List.replicate
          (maxLen - (2 :: (f ++ [3]) ++ (s ++ [3])).length) 0, hf, ?_⟩, ?_⟩
    · simp
    · simp
    · simp [List.sum_append, List.sum_replicate, smul_eq_mul]
      omega

theorem createExample_shape (st : Builder) (g : Gen) (h5 : 5 ≤ st.max_length)
    (hne : sumLens st.current_sentences ≠ 0) :
    (createExample st g).1.input_ids.head? = some 2
    ∧ (∃ f' rest, f' ≠ [] ∧ (createExample st g).1.input_ids = 2 :: (f' ++ 3 :: rest))
    ∧ 3 ≤ (createExample st g).1.input_mask.sum := by
  rw [createExample_fst]
  refine makeTfExample_shape st.max_length _ _ ?_
  refine trunc_first_ne_nil st.max_length _ _ h5 ?_
  exact assign_first_ne_nil _ st.current_sentences [] _ hne

/-- Claim C9: for `max_length ≥ 5` (with the reachable-state invariants
`target_length ≥ 1` and `current_length = sumLens current_sentences`, both
established at construction and preserved by `add_line`), every example
emitted through `add_line` — the end-of-input flush is `add_line("")` — has
`input_ids` starting with the `[CLS]` id 2 followed by a non-empty first
segment and then the structural `[SEP]` id 3 placed by assembly, and
`sum(input_mask) ≥ 3`; in particular no example consisting only of special
markers and padding is emitted. -/
theorem claim_C9 (v : List (String × Nat)) (st : Builder) (g : Gen) (line : String)
    (ex : TfExample) (h5 : 5 ≤ st.max_length) (ht : 1 ≤ st.target_length)
    (hinv : st.current_length = sumLens st.current_sentences)
    (hex : (addLine v st g line).1 = some ex) :
    ex.input_ids.head? = some 2
    ∧ (∃ f' rest, f' ≠ [] ∧ ex.input_ids = 2 :: (f' ++ 3 :: rest))
    ∧ 3 ≤ ex.input_mask.sum := by
  obtain ⟨st₀, hmax, hexeq, hcase⟩ := addLine_emits v st g line ex hex
  subst hexeq
  refine createExample_shape st₀ g (hmax ▸ h5) ?_
  rcases hcase with ⟨hst, -, hcl⟩ | ⟨hst, hge⟩
  · subst hst
    exact fun h0 => hcl (hinv.trans h0)
  · subst hst
    intro h0
    rw [show sumLens (st.current_sentences ++ [lineIds v (stripReplace line)]) =
        sumLens st.current_sentences + (lineIds v (stripReplace line)).length
      from sumLens_append _ _] at h0
    simp only at hge
    omega

/-- Claim C9, witness: a five-token line at `max_length = 5` triggers
emission; the emitted example is `[CLS] t t t [SEP]`. -/
theorem claim_C9_witness :
    ((addLine [] (initBuilder 5) genHalf "a b c d e").1.getD
        ⟨[], [], []⟩).input_ids.head? = some 2
    ∧ (∃ f' rest, f' ≠ []
        ∧ ((addLine [] (initBuilder 5) genHalf "a b c d e").1.getD
            ⟨[], [], []⟩).input_ids = 2 :: (f' ++ 3 :: rest))
    ∧ 3 ≤ ((addLine [] (initBuilder 5) genHalf "a b c d e").1.getD
        ⟨[], [], []⟩).input_mask.sum :=
  claim_C9 [] (initBuilder 5) genHalf "a b c d e"
    ((addLine [] (initBuilder 5) genHalf "a b c d e").1.getD ⟨[], [], []⟩)
    (by decide) (by decide) (by decide) (by decide)

theorem loadVocabAux_isSome (lines : List String) : ∀ (v : List (String × Nat)) (i : Nat),
    (loadVocabAux v i lines).isSome ↔
      ((∀ l ∈ lines, (lineFields l).length = 2)
       ∧ (lines.filterMap linePiece).Nodup
       ∧ ∀ p ∈ lines.filterMap linePiece, p ∉ vocabKeys v) := by
  induction lines with
  | nil =>
      intro v i
      simp [loadVocabAux]
  | cons l rest ih =>
      intro v i
      rcases hfl : lineFields l with _ | ⟨p, _ | ⟨q, _ | _⟩⟩
      · have hnone : loadVocabAux v i (l :: rest) = none := by
          simp only [loadVocabAux, hfl]
        have hp : linePiece l = none := by simp [linePiece, hfl]
        simp [hnone, hp, hfl]
      · have hnone : loadVocabAux v i (l :: rest) = none := by
          simp only [loadVocabAux, hfl]
        have hp : linePiece l = none := by simp [linePiece, hfl]
        simp [hnone, hp, hfl]
      · have hp : linePiece l = some p := by simp [linePiece, hfl]
        have hstep : loadVocabAux v i (l :: rest) =
            if p ∈ vocabKeys v then none
            else loadVocabAux (v ++ [(p, i)]) (i + 1) rest := by
          simp only [loadVocabAux, hfl]
        by_cases hmem : p ∈ vocabKeys v
        · rw [hstep, if_pos hmem]
          simp only [Option.isSome_none, Bool.false_eq_true, false_iff]
          rintro ⟨-, -, h3⟩
          exact h3 p (by simp [List.filterMap_cons, hp]) hmem
        · rw [hstep, if_neg hmem, ih (v ++ [(p, i)]) (i + 1)]
          have hkeys : vocabKeys (v ++ [(p, i)]) = vocabKeys v ++ [p] := by
            simp [vocabKeys]
          have hfm : (l :: rest).filterMap linePiece = p :: rest.filterMap linePiece := by
            simp [List.filterMap_cons, hp]
          rw [hkeys, hfm]
          constructor
          · rintro ⟨h1, h2, h3⟩
            refine ⟨?_, ?_, ?_⟩
            · intro x hx
              rcases List.mem_cons.mp hx with hx | hx
              · subst hx
                simp [hfl]
              · exact h1 x hx
            · refine List.nodup_cons.mpr ⟨?_, h2⟩
              intro hpmem
              have := h3 p hpmem
              simp at this
            · intro x hx
              rcases List.mem_cons.mp hx with hx | hx
              · subst hx
                exact hmem
              · intro hxv
                exact h3 x hx (by simp [hxv])
          · rintro ⟨h1, h2, h3⟩
            refine ⟨fun x hx => h1 x (List.mem_cons_of_mem _ hx), ?_, ?_⟩
            · exact (List.nodup_cons.mp h2).2
            · intro x hx
              simp only [List.mem_append, List.mem_singleton]
              rintro (hxv | hxp)
              · exact h3 x (List.mem_cons_of_mem _ hx) hxv
              · exact (List.nodup_cons.mp h2).1 (hxp ▸ hx)
      · have hnone : loadVocabAux v i (l :: rest) = none := by
          simp only [loadVocabAux, hfl]
        have hp : linePiece l = none := by simp [linePiece, hfl]
        simp [hnone, hp, hfl]

/-- Claim C10: `Tokenizer.__init__` succeeds precisely when every line of the
vocabulary file strips to exactly two whitespace-separated fields, no token
(first field) is repeated, and no token equals one of the five reserved
marker strings; a blank line, a one-field line or a three-or-more-field line
makes the unpacking `piece, _ = line.strip().split()` raise, and a repeat or
reserved token makes the assert raise. -/
theorem claim_C10 (lines : List String) :
    (loadVocab lines).isSome ↔
      ((∀ l ∈ lines, (lineFields l).length = 2)
       ∧ (lines.filterMap linePiece).Nodup
       ∧ ∀ p ∈ lines.filterMap linePiece,
           p ∉ ["[PAD]", "[UNK]", "[CLS]", "[SEP]", "[MASK]"]) := by
  have h := loadVocabAux_isSome lines reservedVocab 5
  have hkeys : vocabKeys reservedVocab = ["[PAD]", "[UNK]", "[CLS]", "[SEP]", "[MASK]"] := by
    simp [vocabKeys, reservedVocab]
  rw [hkeys] at h
  exact h

/-- Claim C10, witness: a well-formed two-line vocabulary file constructs. -/
theorem claim_C10_witness : (loadVocab ["aa 5", "bb 3"]).isSome :=
  (claim_C10 ["aa 5", "bb 3"]).mpr (by decide)
